import Mathlib

/-!
# Workers Connect — verification of the distance/filter engine and OAuth redirect handshake

Shallow embedding of the two logic cores of the repository:

* `src/lib/location-service.ts` — Haversine distance (`calculateDistance`, `toRad`,
  `isWithinRadius`).  JavaScript numbers are modelled as real numbers; the host
  primitives `Math.sin`, `Math.cos`, `Math.sqrt`, `Math.atan2`, `Math.round` are
  modelled by `Real.sin`, `Real.cos`, `Real.sqrt`, an explicit `atan2`, and
  `⌊x + 1/2⌋`.
* `src/app/(tabs)/search.tsx` — the worker-filter pipeline of the search screen
  (profession equality, free-text match, radius cutoff).
* the OAuth `handleLogin` handler (success branch) — normalisation of
  `exp://`/`exps://` redirect URLs, query-parameter extraction through a model of
  the WHATWG `URL` parser, and the regex fallback on unparseable URLs.
-/

namespace WorkersConnect

noncomputable section Geo

/-- A latitude/longitude pair in degrees (`LocationCoordinates` in
`src/lib/location-service.ts`). -/
structure LocationCoordinates where
  latitude : ℝ
  longitude : ℝ

/-- Embeds `toRad` from `src/lib/location-service.ts`: degrees to radians. -/
def toRad (degrees : ℝ) : ℝ := degrees * (Real.pi / 180)

/-- Model of JavaScript `Math.round` on real inputs: round half towards
positive infinity, i.e. `⌊x + 1/2⌋`. -/
def jsRound (x : ℝ) : ℝ := (⌊x + 1 / 2⌋ : ℤ)

/-- Model of JavaScript `Math.atan2 y x` on real inputs (signed zeros are
identified, as the embedding has a single zero). -/
def atan2 (y x : ℝ) : ℝ :=
  if 0 < x then Real.arctan (y / x)
  else if x < 0 then
    (if 0 ≤ y then Real.arctan (y / x) + Real.pi else Real.arctan (y / x) - Real.pi)
  else
    (if 0 < y then Real.pi / 2 else if y < 0 then -(Real.pi / 2) else 0)

/-- Embeds `calculateDistance` from `src/lib/location-service.ts`: Haversine distance in
kilometres with Earth radius 6371 km, rounded to one decimal place by
`Math.round (distance * 10) / 10`. -/
def calculateDistance (coord1 coord2 : LocationCoordinates) : ℝ :=
  let R : ℝ := 6371
  let dLat := toRad (coord2.latitude - coord1.latitude)
  let dLon := toRad (coord2.longitude - coord1.longitude)
  let lat1 := toRad coord1.latitude
  let lat2 := toRad coord2.latitude
  let a :=
    Real.sin (dLat / 2) * Real.sin (dLat / 2) +
      Real.sin (dLon / 2) * Real.sin (dLon / 2) * Real.cos lat1 * Real.cos lat2
  let c := 2 * atan2 (Real.sqrt a) (Real.sqrt (1 - a))
  let distance := R * c
  jsRound (distance * 10) / 10

/-- Embeds `isWithinRadius` from `src/lib/location-service.ts`: the boolean
`calculateDistance point center <= radiusKm`, embedded as the corresponding
proposition. -/
def isWithinRadius (point center : LocationCoordinates) (radiusKm : ℝ) : Prop :=
  calculateDistance point center ≤ radiusKm

/-- The haversine term `a` of `calculateDistance`, named for the proofs. -/
def havTerm (coord1 coord2 : LocationCoordinates) : ℝ :=
  Real.sin (toRad (coord2.latitude - coord1.latitude) / 2) *
      Real.sin (toRad (coord2.latitude - coord1.latitude) / 2) +
    Real.sin (toRad (coord2.longitude - coord1.longitude) / 2) *
        Real.sin (toRad (coord2.longitude - coord1.longitude) / 2) *
        Real.cos (toRad coord1.latitude) * Real.cos (toRad coord2.latitude)

lemma calculateDistance_eq_havTerm (c1 c2 : LocationCoordinates) :
    calculateDistance c1 c2 =
      jsRound (6371 * (2 * atan2 (Real.sqrt (havTerm c1 c2))
        (Real.sqrt (1 - havTerm c1 c2))) * 10) / 10 := rfl

lemma havTerm_comm (c1 c2 : LocationCoordinates) : havTerm c1 c2 = havTerm c2 c1 := by
  unfold havTerm toRad
  have hlat : (c1.latitude - c2.latitude) * (Real.pi / 180) / 2 =
      -((c2.latitude - c1.latitude) * (Real.pi / 180) / 2) := by ring
  have hlon : (c1.longitude - c2.longitude) * (Real.pi / 180) / 2 =
      -((c2.longitude - c1.longitude) * (Real.pi / 180) / 2) := by ring
  rw [hlat, hlon]
  simp only [Real.sin_neg]
  ring

lemma atan2_nonneg {y : ℝ} (x : ℝ) (hy : 0 ≤ y) : 0 ≤ atan2 y x := by
  unfold atan2
  rcases lt_trichotomy x 0 with hx | hx | hx
  · rw [if_neg (by linarith), if_pos hx, if_pos hy]
    have h1 : -(Real.pi / 2) < Real.arctan (y / x) := Real.neg_pi_div_two_lt_arctan _
    have h2 : 0 < Real.pi := Real.pi_pos
    linarith
  · subst hx
    rw [if_neg (lt_irrefl 0), if_neg (lt_irrefl 0)]
    rcases eq_or_lt_of_le hy with h | h
    · rw [if_neg (by linarith), if_neg (by linarith)]
    · rw [if_pos h]
      have := Real.pi_pos
      linarith
  · rw [if_pos hx]
    rw [← Real.arctan_zero]
    exact Real.arctan_strictMono.monotone (by positivity)

lemma havTerm_nonneg {c1 c2 : LocationCoordinates}
    (h1l : -90 ≤ c1.latitude) (h1u : c1.latitude ≤ 90)
    (h2l : -90 ≤ c2.latitude) (h2u : c2.latitude ≤ 90) :
    0 ≤ havTerm c1 c2 := by
  have hpi := Real.pi_pos
  have hcos1 : 0 ≤ Real.cos (toRad c1.latitude) := by
    apply Real.cos_nonneg_of_neg_pi_div_two_le_of_le
    · unfold toRad; nlinarith
    · unfold toRad; nlinarith
  have hcos2 : 0 ≤ Real.cos (toRad c2.latitude) := by
    apply Real.cos_nonneg_of_neg_pi_div_two_le_of_le
    · unfold toRad; nlinarith
    · unfold toRad; nlinarith
  unfold havTerm
  have hs1 := mul_self_nonneg (Real.sin (toRad (c2.latitude - c1.latitude) / 2))
  have hs2 := mul_self_nonneg (Real.sin (toRad (c2.longitude - c1.longitude) / 2))
  have hprod := mul_nonneg (mul_nonneg hs2 hcos1) hcos2
  linarith

lemma havTerm_le_one {c1 c2 : LocationCoordinates}
    (h1l : -90 ≤ c1.latitude) (h1u : c1.latitude ≤ 90)
    (h2l : -90 ≤ c2.latitude) (h2u : c2.latitude ≤ 90) :
    havTerm c1 c2 ≤ 1 := by
  have hpi := Real.pi_pos
  have hcos1 : 0 ≤ Real.cos (toRad c1.latitude) := by
    apply Real.cos_nonneg_of_neg_pi_div_two_le_of_le
    · unfold toRad; nlinarith
    · unfold toRad; nlinarith
  have hcos2 : 0 ≤ Real.cos (toRad c2.latitude) := by
    apply Real.cos_nonneg_of_neg_pi_div_two_le_of_le
    · unfold toRad; nlinarith
    · unfold toRad; nlinarith
  unfold havTerm
  set p1 := toRad c1.latitude with hp1
  set p2 := toRad c2.latitude with hp2
  have hd : toRad (c2.latitude - c1.latitude) = p2 - p1 := by
    rw [hp1, hp2]; unfold toRad; ring
  rw [hd]
  have hhalf : Real.sin ((p2 - p1) / 2) * Real.sin ((p2 - p1) / 2) =
      (1 - Real.cos (p2 - p1)) / 2 := by
    have := Real.sin_sq_eq_half_sub ((p2 - p1) / 2)
    have h2 : 2 * ((p2 - p1) / 2) = p2 - p1 := by ring
    rw [h2] at this
    nlinarith [this]
  have hcos_sub : Real.cos (p2 - p1) = Real.cos p2 * Real.cos p1 +
      Real.sin p2 * Real.sin p1 := Real.cos_sub p2 p1
  have hcos_add : Real.cos (p1 + p2) = Real.cos p1 * Real.cos p2 -
      Real.sin p1 * Real.sin p2 := Real.cos_add p1 p2
  have hcos_add_le : Real.cos (p1 + p2) ≤ 1 := Real.cos_le_one _
  have hsinsq : Real.sin (toRad (c2.longitude - c1.longitude) / 2) *
      Real.sin (toRad (c2.longitude - c1.longitude) / 2) ≤ 1 := by
    nlinarith [Real.neg_one_le_sin (toRad (c2.longitude - c1.longitude) / 2),
      Real.sin_le_one (toRad (c2.longitude - c1.longitude) / 2)]
  have hs2 := mul_self_nonneg (Real.sin (toRad (c2.longitude - c1.longitude) / 2))
  nlinarith [mul_nonneg hcos1 hcos2]

lemma atan2_sqrt_eq_arcsin {h : ℝ} (h0 : 0 ≤ h) (h1 : h ≤ 1) :
    atan2 (Real.sqrt h) (Real.sqrt (1 - h)) = Real.arcsin (Real.sqrt h) := by
  rcases lt_or_eq_of_le h1 with hlt | heq
  · have hpos : 0 < 1 - h := by linarith
    have hx : 0 < Real.sqrt (1 - h) := Real.sqrt_pos.mpr hpos
    unfold atan2
    rw [if_pos hx]
    have hmem : Real.sqrt h ∈ Set.Ioo (-(1 : ℝ)) 1 := by
      constructor
      · have := Real.sqrt_nonneg h; linarith
      · calc Real.sqrt h < Real.sqrt 1 := Real.sqrt_lt_sqrt h0 hlt
          _ = 1 := Real.sqrt_one
    rw [Real.arcsin_eq_arctan hmem, Real.sq_sqrt h0]
  · subst heq
    unfold atan2
    rw [sub_self, Real.sqrt_zero, Real.sqrt_one, Real.arcsin_one]
    rw [if_neg (lt_irrefl 0), if_neg (lt_irrefl 0), if_pos one_pos]

/-- The haversine term of the spec-side distance, written with the spec's
`φ1, φ2` in radians. -/
def specHav (c1 c2 : LocationCoordinates) : ℝ :=
  Real.sin ((toRad c2.latitude - toRad c1.latitude) / 2) ^ 2 +
    Real.cos (toRad c1.latitude) * Real.cos (toRad c2.latitude) *
      Real.sin ((toRad c2.longitude - toRad c1.longitude) / 2) ^ 2

/-- Modelled from the spec: "Haversine formula, Earth radius 6371 km, result
rounded to one decimal place" — the textbook haversine great-circle distance
`2 · R · arcsin (√hav)` with the same one-decimal rounding as the code. -/
def haversineSpec (c1 c2 : LocationCoordinates) : ℝ :=
  jsRound (2 * 6371 * Real.arcsin (Real.sqrt (specHav c1 c2)) * 10) / 10

lemma toRad_sub (a b : ℝ) : toRad (a - b) = toRad a - toRad b := by
  unfold toRad; ring

lemma specHav_eq_havTerm (c1 c2 : LocationCoordinates) :
    specHav c1 c2 = havTerm c1 c2 := by
  unfold specHav havTerm
  rw [← toRad_sub c2.latitude c1.latitude, ← toRad_sub c2.longitude c1.longitude]
  ring

lemma havTerm_self (p : LocationCoordinates) : havTerm p p = 0 := by
  unfold havTerm toRad
  simp

lemma calculateDistance_self_zero (p : LocationCoordinates) :
    calculateDistance p p = 0 := by
  rw [calculateDistance_eq_havTerm, havTerm_self]
  rw [show (1 : ℝ) - 0 = 1 by norm_num, Real.sqrt_zero, Real.sqrt_one]
  unfold atan2
  rw [if_pos one_pos]
  norm_num
  unfold jsRound
  norm_num

lemma jsRound_nonneg {x : ℝ} (hx : 0 ≤ x) : 0 ≤ jsRound x := by
  unfold jsRound
  have h : (0 : ℤ) ≤ ⌊x + 1 / 2⌋ := Int.le_floor.mpr (by push_cast; linarith)
  exact_mod_cast h

lemma calculateDistance_nonneg (a b : LocationCoordinates) :
    0 ≤ calculateDistance a b := by
  rw [calculateDistance_eq_havTerm]
  have hat := atan2_nonneg (Real.sqrt (1 - havTerm a b))
    (Real.sqrt_nonneg (havTerm a b))
  have harg : 0 ≤ 6371 * (2 * atan2 (Real.sqrt (havTerm a b))
      (Real.sqrt (1 - havTerm a b))) * 10 := by positivity
  have := jsRound_nonneg harg
  positivity

/-- C7. --  For every coordinate `p`, `calculateDistance p p = 0` (so in
particular for every valid degree-valued coordinate). -/
theorem distance_self_eq_zero (p : LocationCoordinates) :
    calculateDistance p p = 0 :=
  calculateDistance_self_zero p

/-- C8. --  `calculateDistance` is symmetric in its two arguments. -/
theorem distance_symm (a b : LocationCoordinates) :
    calculateDistance a b = calculateDistance b a := by
  rw [calculateDistance_eq_havTerm, calculateDistance_eq_havTerm, havTerm_comm]

/-- C3. --  `isWithinRadius point center radiusKm` holds iff
`calculateDistance point center ≤ radiusKm`; boundary equality counts as
within. -/
theorem isWithinRadius_iff_le (point center : LocationCoordinates) (radiusKm : ℝ) :
    (isWithinRadius point center radiusKm ↔
      calculateDistance point center ≤ radiusKm) ∧
    (calculateDistance point center = radiusKm →
      isWithinRadius point center radiusKm) :=
  ⟨Iff.rfl, fun h => le_of_eq h⟩

/-- Witness for `isWithinRadius_iff_le` at the origin with radius `0`, where the
boundary-equality hypothesis holds since the distance of a point to itself is `0`. -/
theorem isWithinRadius_iff_le_witness :
    (isWithinRadius ⟨0, 0⟩ ⟨0, 0⟩ 0 ↔ calculateDistance ⟨0, 0⟩ ⟨0, 0⟩ ≤ 0) ∧
    isWithinRadius ⟨0, 0⟩ ⟨0, 0⟩ 0 :=
  ⟨(isWithinRadius_iff_le ⟨0, 0⟩ ⟨0, 0⟩ 0).1,
   (isWithinRadius_iff_le ⟨0, 0⟩ ⟨0, 0⟩ 0).2 (calculateDistance_self_zero ⟨0, 0⟩)⟩

/-- C4. --  For coordinates with latitudes in `[-90, 90]` degrees,
`calculateDistance` equals the textbook haversine great-circle distance with
Earth radius 6371 km rounded to one decimal place (`haversineSpec`); it is a
total function of its real-valued inputs by construction. -/
theorem calculateDistance_is_rounded_haversine (c1 c2 : LocationCoordinates)
    (h1l : -90 ≤ c1.latitude) (h1u : c1.latitude ≤ 90)
    (h2l : -90 ≤ c2.latitude) (h2u : c2.latitude ≤ 90) :
    calculateDistance c1 c2 = haversineSpec c1 c2 := by
  have h0 := havTerm_nonneg h1l h1u h2l h2u
  have h1 := havTerm_le_one h1l h1u h2l h2u
  rw [calculateDistance_eq_havTerm, atan2_sqrt_eq_arcsin h0 h1]
  unfold haversineSpec
  rw [specHav_eq_havTerm]
  congr 1
  ring_nf

/-- Witness for `calculateDistance_is_rounded_haversine` at two concrete valid
coordinates. -/
theorem calculateDistance_is_rounded_haversine_witness :
    calculateDistance ⟨30, 10⟩ ⟨-45, 120⟩ = haversineSpec ⟨30, 10⟩ ⟨-45, 120⟩ :=
  calculateDistance_is_rounded_haversine ⟨30, 10⟩ ⟨-45, 120⟩
    (by norm_num) (by norm_num) (by norm_num) (by norm_num)

/-- C9. --  For coordinates with latitudes in `[-90, 90]` degrees the distance
is nonnegative, and for a negative radius `isWithinRadius` never holds. -/
theorem distance_nonneg_and_neg_radius (point center : LocationCoordinates)
    (radiusKm : ℝ)
    (_h1l : -90 ≤ point.latitude) (_h1u : point.latitude ≤ 90)
    (_h2l : -90 ≤ center.latitude) (_h2u : center.latitude ≤ 90)
    (hr : radiusKm < 0) :
    0 ≤ calculateDistance point center ∧ ¬isWithinRadius point center radiusKm := by
  have hd := calculateDistance_nonneg point center
  exact ⟨hd, fun hw => absurd hw (by unfold isWithinRadius; linarith)⟩

/-- Witness for `distance_nonneg_and_neg_radius` at concrete valid coordinates
with radius `-1`. -/
theorem distance_nonneg_and_neg_radius_witness :
    0 ≤ calculateDistance ⟨0, 0⟩ ⟨10, 20⟩ ∧ ¬isWithinRadius ⟨0, 0⟩ ⟨10, 20⟩ (-1) :=
  distance_nonneg_and_neg_radius ⟨0, 0⟩ ⟨10, 20⟩ (-1)
    (by norm_num) (by norm_num) (by norm_num) (by norm_num) (by norm_num)

end Geo

noncomputable section Search

/-- Embeds `WorkerProfile` (`src/lib/types.ts`, per the spec's data model): identity,
profession, rating, hourly rate, a coordinate, availability flag and tag set.
Display-only fields of the source type are omitted; the search filter in
`src/app/(tabs)/search.tsx` reads `name`, `profession`, `tags` and `location`. -/
structure WorkerProfile where
  id : String
  name : String
  profession : String
  rating : ℝ
  hourlyRate : ℝ
  location : LocationCoordinates
  isAvailable : Bool
  tags : List String

/-- Model of JavaScript `String.prototype.includes`: `pat` occurs as a
contiguous substring of `l` (the empty pattern always occurs). -/
def listContains (l pat : List Char) : Bool :=
  pat.isPrefixOf l ||
    match l with
    | [] => false
    | _ :: t => listContains t pat

/-- String form of `listContains`: JavaScript `s.includes q`. -/
def strIncludes (s q : String) : Bool := listContains s.data q.data

/-- The free-text predicate of the search screen: name, profession or some tag
contains the query. -/
def matchesQuery (searchQuery : String) (w : WorkerProfile) : Bool :=
  strIncludes w.name searchQuery || strIncludes w.profession searchQuery ||
    w.tags.any (fun tag => strIncludes tag searchQuery)

/-- Profession step of the filter `useEffect` in `src/app/(tabs)/search.tsx`:
`if (selectedProfession) filtered = filtered.filter(w => w.profession ===
selectedProfession)`.  JavaScript truthiness: `null` and `""` skip the step. -/
def professionFilter (selectedProfession : Option String)
    (l : List WorkerProfile) : List WorkerProfile :=
  match selectedProfession with
  | some p => if p = "" then l else l.filter (fun w => w.profession == p)
  | none => l

/-- Search-query step: `if (searchQuery) filtered = filtered.filter(...)`. -/
def textFilter (searchQuery : String) (l : List WorkerProfile) :
    List WorkerProfile :=
  if searchQuery = "" then l else l.filter (matchesQuery searchQuery)

/-- Distance step: `if (userLocation) filtered = filtered.filter(w =>
calculateDistance(userLocation, w.location) <= maxDistance)`. -/
def radiusFilter (userLocation : Option LocationCoordinates) (maxDistance : ℝ)
    (l : List WorkerProfile) : List WorkerProfile :=
  match userLocation with
  | some loc => l.filter (fun w => decide (calculateDistance loc w.location ≤ maxDistance))
  | none => l

/-- The full filter pipeline of the search screen, in the source's fixed order:
profession, then free text, then radius. -/
def filterWorkers (workers : List WorkerProfile)
    (selectedProfession : Option String) (searchQuery : String)
    (userLocation : Option LocationCoordinates) (maxDistance : ℝ) :
    List WorkerProfile :=
  radiusFilter userLocation maxDistance
    (textFilter searchQuery (professionFilter selectedProfession workers))

/-- The profession step as a single boolean predicate (constant `true` when the
step is inactive). -/
def professionPred (selectedProfession : Option String) (w : WorkerProfile) : Bool :=
  match selectedProfession with
  | some p => if p = "" then true else w.profession == p
  | none => true

/-- The text step as a single boolean predicate. -/
def textPred (searchQuery : String) (w : WorkerProfile) : Bool :=
  if searchQuery = "" then true else matchesQuery searchQuery w

/-- The radius step as a single boolean predicate. -/
def radiusPred (userLocation : Option LocationCoordinates) (maxDistance : ℝ)
    (w : WorkerProfile) : Bool :=
  match userLocation with
  | some loc => decide (calculateDistance loc w.location ≤ maxDistance)
  | none => true

lemma professionFilter_eq (sp : Option String) (l : List WorkerProfile) :
    professionFilter sp l = l.filter (professionPred sp) := by
  cases sp with
  | none =>
    exact (List.filter_eq_self.mpr fun a _ => by simp [professionPred]).symm
  | some p =>
    by_cases hp : p = ""
    · simp only [professionFilter, if_pos hp]
      exact (List.filter_eq_self.mpr fun a _ => by simp [professionPred, hp]).symm
    · simp only [professionFilter, if_neg hp]
      exact List.filter_congr fun a _ => by simp [professionPred, hp]

lemma textFilter_eq (q : String) (l : List WorkerProfile) :
    textFilter q l = l.filter (textPred q) := by
  by_cases hq : q = ""
  · simp only [textFilter, if_pos hq]
    exact (List.filter_eq_self.mpr fun a _ => by simp [textPred, hq]).symm
  · simp only [textFilter, if_neg hq]
    exact List.filter_congr fun a _ => by simp [textPred, hq]

lemma radiusFilter_eq (loc : Option LocationCoordinates) (d : ℝ)
    (l : List WorkerProfile) :
    radiusFilter loc d l = l.filter (radiusPred loc d) := by
  cases loc with
  | none =>
    exact (List.filter_eq_self.mpr fun a _ => by simp [radiusPred]).symm
  | some o =>
    exact List.filter_congr fun a _ => by simp [radiusPred]

lemma filter_swap {α : Type} (p q : α → Bool) (l : List α) :
    (l.filter p).filter q = (l.filter q).filter p := by
  induction l with
  | nil => rfl
  | cons a t ih =>
    by_cases hp : p a <;> by_cases hq : q a <;>
      simp [List.filter_cons, hp, hq, ih]

/-- C2. --  The three filter steps commute: any application order of the
profession, free-text and radius filters yields the same list as the fixed
order used by the code (`filterWorkers`). -/
theorem filter_order_irrelevant (workers : List WorkerProfile)
    (sp : Option String) (q : String) (loc : Option LocationCoordinates) (d : ℝ) :
    professionFilter sp (textFilter q (radiusFilter loc d workers)) =
        filterWorkers workers sp q loc d ∧
    textFilter q (professionFilter sp (radiusFilter loc d workers)) =
        filterWorkers workers sp q loc d ∧
    textFilter q (radiusFilter loc d (professionFilter sp workers)) =
        filterWorkers workers sp q loc d ∧
    professionFilter sp (radiusFilter loc d (textFilter q workers)) =
        filterWorkers workers sp q loc d ∧
    radiusFilter loc d (professionFilter sp (textFilter q workers)) =
        filterWorkers workers sp q loc d ∧
    radiusFilter loc d (textFilter q (professionFilter sp workers)) =
        filterWorkers workers sp q loc d := by
  simp only [filterWorkers, professionFilter_eq, textFilter_eq, radiusFilter_eq]
  set P := professionPred sp
  set T := textPred q
  set R := radiusPred loc d
  refine ⟨?_, ?_, ?_, ?_, ?_, trivial⟩
  · rw [filter_swap R T workers, filter_swap R P (workers.filter T),
      filter_swap T P workers]
  · rw [filter_swap R P workers, filter_swap R T (workers.filter P)]
  · rw [filter_swap R T (workers.filter P)]
  · rw [filter_swap R P (workers.filter T), filter_swap T P workers]
  · rw [filter_swap T P workers]

/-- C10. --  The filter pipeline returns a sublist of its input (every output
element occurs in the input, order is preserved, nothing is duplicated or
created), and with no active filter the output is the input unchanged. -/
theorem filterWorkers_sublist (workers : List WorkerProfile)
    (sp : Option String) (q : String) (loc : Option LocationCoordinates) (d : ℝ) :
    (filterWorkers workers sp q loc d).Sublist workers ∧
    (sp = none → q = "" → loc = none →
      filterWorkers workers sp q loc d = workers) := by
  constructor
  · unfold filterWorkers
    rw [professionFilter_eq, textFilter_eq, radiusFilter_eq]
    exact ((List.filter_sublist _).trans (List.filter_sublist _)).trans
      (List.filter_sublist _)
  · rintro rfl rfl rfl
    rfl

/-- Witness for `filterWorkers_sublist` on a one-element list with every filter
inactive. -/
theorem filterWorkers_sublist_witness :
    (filterWorkers [⟨"1", "worker", "electrician", 5, 100, ⟨0, 0⟩, true,
        ["repair"]⟩] none "" none 50).Sublist
      [⟨"1", "worker", "electrician", 5, 100, ⟨0, 0⟩, true, ["repair"]⟩] ∧
    filterWorkers [⟨"1", "worker", "electrician", 5, 100, ⟨0, 0⟩, true,
        ["repair"]⟩] none "" none 50 =
      [⟨"1", "worker", "electrician", 5, 100, ⟨0, 0⟩, true, ["repair"]⟩] :=
  ⟨(filterWorkers_sublist _ none "" none 50).1,
   (filterWorkers_sublist _ none "" none 50).2 rfl rfl rfl⟩

end Search

section OAuth

/-- Hexadecimal digit value of a character, if any. -/
def hexVal (c : Char) : Option Nat :=
  if decide ('0' ≤ c) && decide (c ≤ '9') then some (c.toNat - 48)
  else if decide ('a' ≤ c) && decide (c ≤ 'f') then some (c.toNat - 87)
  else if decide ('A' ≤ c) && decide (c ≤ 'F') then some (c.toNat - 55)
  else none

/-- Byte-wise percent-decoding on character lists: `%XY` with hex digits
becomes the character with code `16·X + Y`; malformed escapes are left as-is.
Model of the host `decodeURIComponent` (which in addition performs UTF-8
multi-byte assembly and throws on malformed input; the URLs of the claims
contain only single-byte escapes or none). -/
def percentDecodeData : List Char → List Char
  | [] => []
  | '%' :: a :: b :: t =>
    match hexVal a, hexVal b with
    | some x, some y => Char.ofNat (16 * x + y) :: percentDecodeData t
    | _, _ => '%' :: percentDecodeData (a :: b :: t)
  | c :: t => c :: percentDecodeData t

/-- String form of `percentDecodeData`: models `decodeURIComponent`. -/
def percentDecode (s : String) : String := ⟨percentDecodeData s.data⟩

/-- Form-urlencoded decoding of a name or value: `+`
becomes a space, then percent-decoding. -/
def formDecodeData (l : List Char) : List Char :=
  percentDecodeData (l.map fun c => if c = '+' then ' ' else c)

/-- Split a character list at the first occurrence of `sep`, if present. -/
def splitAtChar (sep : Char) : List Char → Option (List Char × List Char)
  | [] => none
  | c :: t =>
    if c = sep then some ([], t)
    else
      match splitAtChar sep t with
      | some (a, b) => some (c :: a, b)
      | none => none

/-- Split a character list on every occurrence of `sep`. -/
def splitOnSep (sep : Char) : List Char → List (List Char)
  | [] => [[]]
  | c :: t =>
    if c = sep then [] :: splitOnSep sep t
    else
      match splitOnSep sep t with
      | [] => [[c]]
      | h :: r => (c :: h) :: r

/-- The part of a parsed URL that `handleLogin` reads: its query string. -/
structure StdUrl where
  query : List Char
deriving DecidableEq

def isAlpha (c : Char) : Bool :=
  (decide ('a' ≤ c) && decide (c ≤ 'z')) || (decide ('A' ≤ c) && decide (c ≤ 'Z'))

def isSchemeChar (c : Char) : Bool :=
  isAlpha c || (decide ('0' ≤ c) && decide (c ≤ '9')) ||
    c == '+' || c == '-' || c == '.'

/-- Model of the host WHATWG `URL` constructor, restricted to what
`handleLogin` reads: the input must have an alphabetic scheme followed by
`://` and a nonempty host, else parsing fails (`new URL(...)` throws); the
query is the text between the first `?` and the fragment. -/
def parseStdData (l : List Char) : Option StdUrl :=
  match splitAtChar ':' l with
  | none => none
  | some (scheme, rest) =>
    match scheme with
    | [] => none
    | c :: cs =>
      if isAlpha c && cs.all isSchemeChar then
        match rest with
        | '/' :: '/' :: rest2 =>
          let host := rest2.takeWhile fun ch => ch != '/' && ch != '?' && ch != '#'
          if host.isEmpty then none
          else
            let afterHost := rest2.drop host.length
            let beforeFrag := afterHost.takeWhile (· != '#')
            match splitAtChar '?' beforeFrag with
            | some (_, q) => some ⟨q⟩
            | none => some ⟨[]⟩
        | _ => none
      else none

/-- String form of `parseStdData`: models `new URL`. -/
def parseStd (s : String) : Option StdUrl := parseStdData s.data

/-- Find the first `name=value` pair of a form-urlencoded query whose decoded
name equals `name`; empty segments are skipped, a segment without `=` has the
empty value.  Model of `URLSearchParams.get`. -/
def getParamFromSegs (name : List Char) : List (List Char) → Option (List Char)
  | [] => none
  | seg :: rest =>
    if seg.isEmpty then getParamFromSegs name rest
    else
      let n := seg.takeWhile (· != '=')
      let v :=
        match splitAtChar '=' seg with
        | some (_, v) => v
        | none => []
      if formDecodeData n == name then some (formDecodeData v)
      else getParamFromSegs name rest

/-- Models `url.searchParams.get name`. -/
def getParam (u : StdUrl) (name : String) : Option String :=
  (getParamFromSegs name.data (splitOnSep '&' u.query)).map fun l => ⟨l⟩

/-- JavaScript `String.prototype.startsWith`, on the character lists. -/
def strStartsWith (s pre : String) : Bool := pre.data.isPrefixOf s.data

/-- The scheme normalisation of `handleLogin`: `exp://` and `exps://` prefixes
are replaced by `http://` (the regex `^exp(s)?:\/\/` guarded by the two
`startsWith` tests); all other URLs are untouched. -/
def normalizeUrl (url : String) : String :=
  if strStartsWith url "exp://" then ⟨"http://".data ++ url.data.drop 6⟩
  else if strStartsWith url "exps://" then ⟨"http://".data ++ url.data.drop 7⟩
  else url

/-- The regex fallback `url.match(/[?&]key=([^&]+)/)` of `handleLogin`: find
the leftmost `?` or `&` followed by `key=` and a nonempty run of non-`&`
characters, returning that run. -/
def extractAfterKey (key : List Char) : List Char → Option (List Char)
  | [] => none
  | c :: t =>
    if (c == '?' || c == '&') && key.isPrefixOf t then
      let cap := (t.drop key.length).takeWhile (· != '&')
      if cap.isEmpty then extractAfterKey key t else some cap
    else extractAfterKey key t

/-- Models `url.match(/[?&]name=([^&]+)/)`, returning the captured group. -/
def extractParam (name : String) (url : String) : Option String :=
  (extractAfterKey (name.data ++ ['=']) url.data).map fun l => ⟨l⟩

/-- Terminal outcomes of one `handleLogin` run: the browser session was
cancelled or dismissed, the handshake failed (no navigation), or `code` and
`state` were forwarded to the `/oauth/callback` route. -/
inductive AuthOutcome where
  | cancelled
  | dismissed
  | failed
  | success (code state : String)
deriving DecidableEq

/-- JavaScript truthiness of a nullable string. -/
def truthy : Option String → Bool
  | none => false
  | some s => !(s == "")

/-- The redirect-URL handling of `handleLogin`'s success branch
(`src/unnamed/part_002`, lines 82–131): normalise the scheme, parse with the
standard URL parser and read `code`/`state`/`error`; an `error` value aborts,
both `code` and `state` navigate to the callback; if parsing throws, regex-
extract `code` and `state` from the raw URL, URL-decoded, else fail. -/
def handleRedirect (url : String) : AuthOutcome :=
  match parseStd (normalizeUrl url) with
  | some u =>
    let code := getParam u "code"
    let state := getParam u "state"
    let error := getParam u "error"
    if truthy error then .failed
    else
      match code, state with
      | some c, some s =>
        if truthy (some c) && truthy (some s) then .success c s else .failed
      | _, _ => .failed
  | none =>
    match extractParam "code" url, extractParam "state" url with
    | some c, some s => .success (percentDecode c) (percentDecode s)
    | _, _ => .failed

/-- Result of `WebBrowser.openAuthSessionAsync` as `handleLogin` inspects it. -/
inductive BrowserResult where
  | cancel
  | dismiss
  | success (url : String)

/-- Models `handleLogin` after the browser session resolves: cancel and dismiss are
terminal; a success result hands its redirect URL to `handleRedirect`. -/
def handleBrowserResult : BrowserResult → AuthOutcome
  | .cancel => .cancelled
  | .dismiss => .dismissed
  | .success url => handleRedirect url

/-- C5. -- The redirect URL `exp://host/oauth/callback?code=ABC&state=XYZ` is
normalised to its `http://` form, parses, and yields Success with exactly
`code = "ABC"` and `state = "XYZ"` forwarded to the callback route. -/
theorem oauth_exp_scheme_success :
    normalizeUrl "exp://host/oauth/callback?code=ABC&state=XYZ" =
      "http://host/oauth/callback?code=ABC&state=XYZ" ∧
    handleBrowserResult (.success "exp://host/oauth/callback?code=ABC&state=XYZ") =
      .success "ABC" "XYZ" := by
  constructor
  · decide
  · decide

/-- C1 (amended). -- When the standard URL parser accepts the normalised
redirect URL and the `error` query parameter is present with a nonempty value,
the handshake ends in Failed (no navigation to the callback route), even when
`code` and `state` are also present.  The regex-fallback path for unparseable
URLs does not inspect `error` (see the counterexample), so the original
claim's extension to that path does not hold. -/
theorem oauth_error_param_failed_when_parsed (url : String) (u : StdUrl)
    (e : String) (hp : parseStd (normalizeUrl url) = some u)
    (he : getParam u "error" = some e) (hne : e ≠ "") :
    handleBrowserResult (.success url) = .failed := by
  show handleRedirect url = .failed
  simp only [handleRedirect, hp, he]
  simp [truthy, hne]

/-- Witness for `oauth_error_param_failed_when_parsed` on a parseable URL with
`error=access_denied` next to valid `code` and `state`. -/
theorem oauth_error_param_failed_when_parsed_witness :
    parseStd (normalizeUrl "https://host/cb?error=access_denied&code=ABC&state=XYZ") =
      some ⟨"error=access_denied&code=ABC&state=XYZ".data⟩ ∧
    handleBrowserResult
      (.success "https://host/cb?error=access_denied&code=ABC&state=XYZ") = .failed :=
  ⟨by decide,
   oauth_error_param_failed_when_parsed
     "https://host/cb?error=access_denied&code=ABC&state=XYZ"
     ⟨"error=access_denied&code=ABC&state=XYZ".data⟩ "access_denied"
     (by decide) (by decide) (by decide)⟩

/-- Counterexample to C1 as stated.  First input: the URL
`x?code=ABC&state=XYZ&error=access_denied` contains `error=access_denied` but
cannot be parsed by the standard URL parser (no scheme), so the regex fallback
runs, ignores `error`, and the handshake ends in Success, not Failed.  Second
input: a parseable URL whose `error` parameter is present but empty is also
not Failed, because the code tests JavaScript truthiness of the value. -/
theorem oauth_error_param_counterexample :
    (parseStd (normalizeUrl "x?code=ABC&state=XYZ&error=access_denied")).isNone = true ∧
    handleBrowserResult (.success "x?code=ABC&state=XYZ&error=access_denied") =
      .success "ABC" "XYZ" ∧
    handleBrowserResult (.success "x?code=ABC&state=XYZ&error=access_denied") ≠
      .failed ∧
    handleBrowserResult (.success "https://host/cb?error=&code=ABC&state=XYZ") =
      .success "ABC" "XYZ" := by
  refine ⟨by decide, by decide, by decide, by decide⟩

/-- C6. -- If the standard URL parser rejects the normalised redirect URL, the
regex fallback extracts `code` and `state` from the raw text: when both
substrings are present the handshake reaches Success with the URL-decoded
values, and when neither can be extracted it ends in Failed. -/
theorem oauth_regex_fallback (url : String)
    (hp : parseStd (normalizeUrl url) = none) :
    (∀ c s, extractParam "code" url = some c → extractParam "state" url = some s →
      handleBrowserResult (.success url) =
        .success (percentDecode c) (percentDecode s)) ∧
    ((extractParam "code" url = none ∧ extractParam "state" url = none) →
      handleBrowserResult (.success url) = .failed) := by
  constructor
  · intro c s hc hs
    show handleRedirect url = _
    simp only [handleRedirect, hp, hc, hs]
  · rintro ⟨hc, hs⟩
    show handleRedirect url = _
    simp only [handleRedirect, hp, hc, hs]

/-- Witness for `oauth_regex_fallback` on the unparseable URL
`bad?code=A1&state=B2`. -/
theorem oauth_regex_fallback_witness :
    parseStd (normalizeUrl "bad?code=A1&state=B2") = none ∧
    handleBrowserResult (.success "bad?code=A1&state=B2") = .success "A1" "B2" := by
  refine ⟨by decide, ?_⟩
  have h := (oauth_regex_fallback "bad?code=A1&state=B2" (by decide)).1 "A1" "B2"
    (by decide) (by decide)
  rw [show percentDecode "A1" = "A1" by decide,
    show percentDecode "B2" = "B2" by decide] at h
  exact h

end OAuth

end WorkersConnect
